import Mathlib

/-!
# FileSystem: command parser and on-disk structure constants

A shallow embedding of `inputParser.c` (`userInputIsValid`, `executeCommand`)
and of the constants and record layouts of `fsStructures.h`.

Modelling conventions.

* A C string (`char *`, NUL terminated) is a Lean `String`: the characters
  before the terminator.  `strcmp(a, b) == 0` is equality of the two strings.
  The code inspects single characters only by comparing them with ASCII codes
  (48 to 57 for the digits); on a `Char` this is a comparison of `Char.toNat`,
  and a character outside ASCII fails the digit test as each of its bytes does.
* `argv` is a `List String`; reading `argv[i]` is `argv[i]?`, and a read past
  the end of the vector makes the whole call `none`.
* `int` values are `Int`; the only arithmetic on them is `argc - 1`, and the
  result of `atoi` is truncated to 32 bits explicitly.
* The functions of `fsImplementation.h` called by `executeCommand` are not
  evaluated: every call is recorded, with its arguments, as an `Event`.
  `getVCBCurrentDirectory`, whose result is only used as an argument, is a
  parameter of the embedding.
-/

namespace FileSystem

/-! ## inputParser.c : userInputIsValid -/

/-- The array `validCommands` of `userInputIsValid`. -/
def validCommands : List String :=
  [ "ls",
    "tree",
    "cd",
    "pwd",
    "mkdir",
    "mkfile",
    "rmfile",
    "cpyfile",
    "mvfile",
    "chmod",
    "TODO: Copy from the normal filesystem to this filesystem",
    "TODO: Copy from this filesystem to the normal filesystem",
    "commands",
    "c",
    "Commands",
    "C",
    "exit",
    "e",
    "Exit",
    "E" ]

/-- The array `numberOfArgumentsPerCommand` of `userInputIsValid`. -/
def numberOfArgumentsPerCommand : List Int :=
  [ 0, 0, 1, 0, 1, 3, 1, 2, 2, 2, 99, 99, 0, 0, 0, 0, 0, 0, 0, 0 ]

/-- The local `numberOfCommands`:
`sizeof(numberOfArgumentsPerCommand) / sizeof(numberOfArgumentsPerCommand[0])`. -/
def numberOfCommands : Nat := numberOfArgumentsPerCommand.length

/-- The `for (int i = 0; i < numberOfCommands; i++)` loop of `userInputIsValid`,
entered at index `i`; `arg0` is `argv[0]`.  `fuel` bounds the number of
iterations still to run (`numberOfCommands` of them cover the whole loop), and
leaving the loop reaches the final `return 0`.  The result is `none` only if
one of the two tables is read out of bounds. -/
def userInputIsValidLoop (argc : Int) (arg0 : String) : Nat → Nat → Option Int
  | 0, _ => some 0
  | fuel + 1, i =>
    if i < numberOfCommands then
      match validCommands[i]? with
      | none => none
      | some cmd =>
        if cmd = arg0 then
          match numberOfArgumentsPerCommand[i]? with
          | none => none
          | some nargs => if argc - 1 = nargs then some 1 else some 0
        else if i = numberOfCommands - 1 then some 0
        else userInputIsValidLoop argc arg0 fuel (i + 1)
    else some 0

/-- The function `int userInputIsValid (int argc, char *argv[])`. -/
def userInputIsValid (argc : Int) (argv : List String) : Option Int :=
  match argv[0]? with
  | none => none
  | some arg0 => userInputIsValidLoop argc arg0 numberOfCommands 0

/-! ## libc : atoi -/

/-- The C `isspace` in the "C" locale: space, `\t`, `\n`, `\v`, `\f`, `\r`. -/
def isspace (c : Char) : Bool :=
  c.toNat = 32 || (9 ≤ c.toNat && c.toNat ≤ 13)

/-- The digit loop of `strtol` in base 10: consumes leading decimal digits,
accumulating their value (unbounded; the caller clamps). -/
def strtolDigits : List Char → Nat → Nat
  | [], acc => acc
  | c :: cs, acc =>
    if 48 ≤ c.toNat ∧ c.toNat ≤ 57 then strtolDigits cs (acc * 10 + (c.toNat - 48))
    else acc

/-- The value `LONG_MAX` of a 64-bit `long`. -/
def LONG_MAX : Int := 2 ^ 63 - 1

/-- The value `LONG_MIN` of a 64-bit `long`. -/
def LONG_MIN : Int := -(2 ^ 63)

/-- The libc `strtol(s, NULL, 10)`: skip white space, read an optional sign
(45 is `-`, 43 is `+`), read the digits, clamp to the range of `long`. -/
def strtol (s : List Char) : Int :=
  match s.dropWhile isspace with
  | [] => 0
  | c :: r =>
    if c.toNat = 45 then max (-(strtolDigits r 0 : Int)) LONG_MIN
    else if c.toNat = 43 then min (strtolDigits r 0 : Int) LONG_MAX
    else min (strtolDigits (c :: r) 0 : Int) LONG_MAX

/-- Conversion of a `long` to a 32-bit `int` (two's complement truncation). -/
def longToInt (v : Int) : Int :=
  (v + 2 ^ 31) % 2 ^ 32 - 2 ^ 31

/-- The libc `atoi(s)`, that is `(int) strtol(s, NULL, 10)`. -/
def atoi (s : String) : Int :=
  longToInt (strtol s.toList)

/-! ## inputParser.c : executeCommand -/

/-- One call made by `executeCommand`, with its arguments in source order. -/
inductive Event where
  | listDirectories (dir : Nat) (blockSize : Nat)
  | listTree (dir : Nat) (blockSize : Nat)
  | changeDirectory (path : String) (arg2 : Nat) (blockSize : Nat)
  | displayCurrentDirectory (blockSize : Nat)
  | createDirectory (name : String) (dir : Nat) (blockSize : Nat)
  | createFileDirectory (name : String) (ext : String) (size : Int) (dir : Nat)
      (blockSize : Nat)
  | exitFileSystem (blockSize : Nat)
  | printCommands
  | printf (msg : String)
  deriving DecidableEq

/-- The loop `for (int i = 0; i < strlen(argv[3]); i++)` of the `mkfile` branch
over the characters of `argv[3]`: `false` when the body reaches its `return`
(a character below 48 or above 57), `true` when the loop runs to the end. -/
def sizeIsNumber : List Char → Bool
  | [] => true
  | c :: cs => if c.toNat < 48 ∨ c.toNat > 57 then false else sizeIsNumber cs

/-- The function `void executeCommand (int argc, char *argv[], uint64_t blockSize)`.
The result is the list of calls made, in order, or `none` when `argv` is read
at an index it does not have. -/
def executeCommand (getVCBCurrentDirectory : Nat → Nat) (_argc : Int)
    (argv : List String) (blockSize : Nat) : Option (List Event) :=
  match argv[0]? with
  | none => none
  | some arg0 =>
    if arg0 = "ls" then
      some [Event.listDirectories (getVCBCurrentDirectory blockSize) blockSize]
    else if arg0 = "tree" then
      some [Event.listTree (getVCBCurrentDirectory blockSize) blockSize]
    else if arg0 = "cd" then
      match argv[1]? with
      | none => none
      | some a1 => some [Event.changeDirectory a1 0 blockSize]
    else if arg0 = "pwd" then
      some [Event.displayCurrentDirectory blockSize]
    else if arg0 = "mkdir" then
      match argv[1]? with
      | none => none
      | some a1 =>
        some [Event.createDirectory a1 (getVCBCurrentDirectory blockSize) blockSize]
    else if arg0 = "mkfile" then
      match argv[3]? with
      | none => none
      | some a3 =>
        if sizeIsNumber a3.toList then
          match argv[1]?, argv[2]? with
          | some a1, some a2 =>
            some [Event.createFileDirectory a1 a2 (atoi a3)
                    (getVCBCurrentDirectory blockSize) blockSize]
          | _, _ => none
        else
          some [Event.printf "Invalid Argument. File Size Must Be a Number.\n\n"]
    else if arg0 = "exit" ∨ arg0 = "e" ∨ arg0 = "Exit" ∨ arg0 = "E" then
      some [Event.exitFileSystem blockSize]
    else if arg0 = "commands" ∨ arg0 = "C" ∨ arg0 = "Commands" ∨ arg0 = "C" then
      some [Event.printCommands]
    else some []

/-! ## fsStructures.h : permission masks -/

def OTHER_EXECUTE : Nat := 0x0001
def OTHER_WRITE : Nat := 0x0002
def OTHER_READ : Nat := 0x0004
def GROUP_EXECUTE : Nat := 0x0008
def GROUP_WRITE : Nat := 0x0010
def GROUP_READ : Nat := 0x0012
def USER_EXECUTE : Nat := 0x0014
def USER_WRITE : Nat := 0x0016
def USER_READ : Nat := 0x0018

/-- The nine masks in the order of the bit layout comment of `fsStructures.h`
("1st bit: Other execute" up to "9th bit: User read"). -/
def permissionMasks : List Nat :=
  [ OTHER_EXECUTE, OTHER_WRITE, OTHER_READ,
    GROUP_EXECUTE, GROUP_WRITE, GROUP_READ,
    USER_EXECUTE, USER_WRITE, USER_READ ]

/-! ## fsStructures.h : record layouts -/

def FILE_NAME_LENGTH : Nat := 32
def FILE_EXTENSION_LENGTH : Nat := 10
def VOLUME_NAME_LENGHT : Nat := 30

/-- A member of a C struct: its size and its alignment, in bytes. -/
structure CField where
  size : Nat
  align : Nat
  deriving DecidableEq

/-- The type `uint64_t`. -/
def uint64_t : CField := ⟨8, 8⟩
/-- The type `uint32_t`. -/
def uint32_t : CField := ⟨4, 4⟩
/-- The type `uint16_t`. -/
def uint16_t : CField := ⟨2, 2⟩
/-- The type `char[n]`. -/
def charArray (n : Nat) : CField := ⟨n, 1⟩
/-- A flexible array member `t name[]`: no storage, the alignment of `t`. -/
def flexibleArray (t : CField) : CField := ⟨0, t.align⟩

/-- The least multiple of `a` that is at least `off`. -/
def alignUp (off a : Nat) : Nat := (off + a - 1) / a * a

/-- The offset just past the last member when the members are laid out in
order, each at the next offset that is a multiple of its alignment. -/
def structEnd (fields : List CField) : Nat :=
  fields.foldl (fun off f => alignUp off f.align + f.size) 0

/-- The alignment of a struct: the largest alignment of a member. -/
def structAlign (fields : List CField) : Nat :=
  fields.foldl (fun a f => max a f.align) 1

/-- The value of `sizeof` for a struct with natural alignment: the end of the last
member rounded up to the alignment of the struct. -/
def sizeofStruct (fields : List CField) : Nat :=
  alignUp (structEnd fields) (structAlign fields)

/-- The members of `struct directoryEntry`. -/
def directoryEntry : List CField :=
  [ uint64_t,                          -- fileIndexLocation
    charArray FILE_NAME_LENGTH,        -- name
    charArray FILE_EXTENSION_LENGTH,   -- fileExtension
    uint16_t,                          -- permissions
    uint32_t,                          -- dateCreated
    uint64_t ]                         -- fileSize

/-- The members of `struct fileIndexInformation`. -/
def fileIndexInformation : List CField :=
  [ uint64_t,                          -- nextFileIndexLocation
    flexibleArray uint64_t ]           -- fileIndexLocation[]

/-- The bytes taken by a `struct fileIndexInformation` whose array
`fileIndexLocation` has `n` elements. -/
def fileIndexInformationBytes (n : Nat) : Nat :=
  sizeofStruct fileIndexInformation + n * uint64_t.size

/-- The size of an LBA block, `MINBLOCKSIZE` of `fsLow.h`. -/
def MINBLOCKSIZE : Nat := 512

/-! ## Notions used to state the properties -/

/-- The command table of the shell as a list of pairs: every accepted command name
with the number of arguments it takes. -/
def commandTable : List (String × Int) :=
  [ ("ls", 0), ("tree", 0), ("cd", 1), ("pwd", 0), ("mkdir", 1), ("mkfile", 3),
    ("rmfile", 1), ("cpyfile", 2), ("mvfile", 2), ("chmod", 2),
    ("commands", 0), ("c", 0), ("Commands", 0), ("C", 0),
    ("exit", 0), ("e", 0), ("Exit", 0), ("E", 0),
    ("TODO: Copy from the normal filesystem to this filesystem", 99),
    ("TODO: Copy from this filesystem to the normal filesystem", 99) ]

/-- A call into the file system implementation, as opposed to console output. -/
def Event.isOperation : Event → Bool
  | Event.printf _ => false
  | _ => true

/-- The file system operations among the calls of a run. -/
def operations (events : List Event) : List Event :=
  events.filter Event.isOperation

/-- The directory argument of the calls that work relative to a directory:
`listDirectories`, `listTree`, `changeDirectory`, `createDirectory` and
`createFileDirectory`. -/
def Event.directoryArgument : Event → Option Nat
  | Event.listDirectories dir _ => some dir
  | Event.listTree dir _ => some dir
  | Event.changeDirectory _ arg2 _ => some arg2
  | Event.createDirectory _ dir _ => some dir
  | Event.createFileDirectory _ _ _ dir _ => some dir
  | _ => none

/-- Every directory argument among the calls is the current directory block,
the value of `getVCBCurrentDirectory(blockSize)`. -/
def passesCurrentDirectory (getVCBCurrentDirectory : Nat → Nat) (blockSize : Nat)
    (events : List Event) : Prop :=
  ∀ e ∈ events, ∀ dir, e.directoryArgument = some dir →
    dir = getVCBCurrentDirectory blockSize

/-- The number a string of decimal digits denotes, by position: the first
character is the most significant digit (48 is the character `0`). -/
def decimalValue : List Char → Nat
  | [] => 0
  | c :: cs => (c.toNat - 48) * 10 ^ cs.length + decimalValue cs

/-! ## Lemmas on userInputIsValid -/

theorem userInputIsValidLoop_of_not_mem (argc : Int) (arg0 : String)
    (h : arg0 ∉ validCommands) :
    ∀ fuel i, userInputIsValidLoop argc arg0 fuel i = some 0 := by
  intro fuel
  induction fuel with
  | zero => intro i; rfl
  | succ n ih =>
    intro i
    rw [userInputIsValidLoop]
    by_cases hi : i < numberOfCommands
    · rw [if_pos hi]
      cases hc : validCommands[i]? with
      | none =>
        have := List.getElem?_eq_none_iff.mp hc
        simp [numberOfCommands, numberOfArgumentsPerCommand, validCommands] at hi this
        omega
      | some cmd =>
        have hmem : cmd ∈ validCommands := List.getElem?_mem hc
        have hne : cmd ≠ arg0 := fun e => h (e ▸ hmem)
        simp only [hne, if_false]
        by_cases hl : i = numberOfCommands - 1
        · rw [if_pos hl]
        · rw [if_neg hl]; exact ih (i + 1)
    · rw [if_neg hi]

theorem userInputIsValidLoop_eq (argc : Int) (arg0 : String) :
    userInputIsValidLoop argc arg0 numberOfCommands 0
      = if (arg0, argc - 1) ∈ commandTable then some 1 else some 0 := by
  by_cases h : arg0 ∈ validCommands
  · simp only [validCommands, List.mem_cons, List.mem_nil_iff, or_false] at h
    rcases h with h | h | h | h | h | h | h | h | h | h | h | h | h | h | h | h | h | h | h | h <;>
      subst h <;>
      simp [userInputIsValidLoop, numberOfCommands, numberOfArgumentsPerCommand,
        validCommands, commandTable]
  · rw [userInputIsValidLoop_of_not_mem argc arg0 h, if_neg]
    intro hm
    apply h
    simp only [commandTable, List.mem_cons, Prod.mk.injEq, List.mem_nil_iff, or_false] at hm
    simp only [validCommands, List.mem_cons, List.mem_nil_iff, or_false]
    tauto

theorem userInputIsValid_cons (argc : Int) (arg0 : String) (rest : List String) :
    userInputIsValid argc (arg0 :: rest)
      = if (arg0, argc - 1) ∈ commandTable then some 1 else some 0 := by
  rw [← userInputIsValidLoop_eq]
  simp [userInputIsValid]

/-! ## Properties of userInputIsValid -/

/-- C1: for an argument vector of `argc >= 1` strings, `userInputIsValid` returns
1 exactly when `argv[0]` is a name of the command table and `argc - 1` is the
argument count of that name, and returns 0 in every other case. -/
theorem userInputIsValid_iff_commandTable (argc : Int) (argv : List String)
    (hargc : 1 ≤ argc) (hlen : (argv.length : Int) = argc) :
    ∃ arg0, argv[0]? = some arg0 ∧
      (userInputIsValid argc argv = some 1 ↔ (arg0, argc - 1) ∈ commandTable) ∧
      ((arg0, argc - 1) ∉ commandTable → userInputIsValid argc argv = some 0) := by
  cases argv with
  | nil => simp at hlen; omega
  | cons arg0 rest =>
    refine ⟨arg0, by simp, ?_, ?_⟩
    · rw [userInputIsValid_cons]
      split_ifs with hm <;> simp [hm]
    · intro hm
      rw [userInputIsValid_cons, if_neg hm]

theorem userInputIsValid_iff_commandTable_witness :
    (1 : Int) ≤ 4 ∧
    ((["mkfile", "report", "txt", "2000"].length : Nat) : Int) = 4 ∧
    ∃ arg0, ["mkfile", "report", "txt", "2000"][0]? = some arg0 ∧
      (userInputIsValid 4 ["mkfile", "report", "txt", "2000"] = some 1 ↔
        (arg0, (4 : Int) - 1) ∈ commandTable) ∧
      ((arg0, (4 : Int) - 1) ∉ commandTable →
        userInputIsValid 4 ["mkfile", "report", "txt", "2000"] = some 0) :=
  ⟨by decide, by decide,
    userInputIsValid_iff_commandTable 4 ["mkfile", "report", "txt", "2000"]
      (by decide) (by decide)⟩

/-- C10: when `userInputIsValid` has returned 1 on an argument vector of
`argc >= 1` strings, `executeCommand` reads `argv` only at indices the vector
has: it runs to the end and never takes a missing-argument branch. -/
theorem executeCommand_reads_in_bounds (getVCBCurrentDirectory : Nat → Nat) (argc : Int)
    (argv : List String) (blockSize : Nat)
    (hargc : 1 ≤ argc) (hlen : (argv.length : Int) = argc)
    (hvalid : userInputIsValid argc argv = some 1) :
    ∃ events, executeCommand getVCBCurrentDirectory argc argv blockSize = some events := by
  cases argv with
  | nil => simp at hlen; omega
  | cons arg0 rest =>
    rw [userInputIsValid_cons] at hvalid
    have hm : (arg0, argc - 1) ∈ commandTable := by
      by_contra hn
      rw [if_neg hn] at hvalid
      simp at hvalid
    simp only [List.length_cons, Nat.cast_add, Nat.cast_one] at hlen
    simp only [commandTable, List.mem_cons, Prod.mk.injEq, List.mem_nil_iff, or_false] at hm
    rcases hm with h | h | h | h | h | h | h | h | h | h | h | h | h | h | h | h | h | h | h | h <;>
      obtain ⟨h0, hn⟩ := h <;> subst h0 <;>
      rcases rest with _ | ⟨a1, _ | ⟨a2, _ | ⟨a3, _ | ⟨a4, r⟩⟩⟩⟩ <;>
      first
      | (exfalso; simp only [List.length_cons, List.length_nil] at hlen; omega)
      | (refine Option.isSome_iff_exists.mp ?_; simp [executeCommand]; done)
      | (refine Option.isSome_iff_exists.mp ?_; simp only [executeCommand]; simp
         split_ifs <;> rfl)

theorem executeCommand_reads_in_bounds_witness :
    (1 : Int) ≤ 4 ∧
    ((["mkfile", "report", "txt", "2000"].length : Nat) : Int) = 4 ∧
    userInputIsValid 4 ["mkfile", "report", "txt", "2000"] = some 1 ∧
    ∃ events, executeCommand (fun _ => 7) 4 ["mkfile", "report", "txt", "2000"] 512
      = some events :=
  ⟨by decide, by decide, by decide,
    executeCommand_reads_in_bounds (fun _ => 7) 4 ["mkfile", "report", "txt", "2000"] 512
      (by decide) (by decide) (by decide)⟩

/-! ## Lemmas on the size argument of mkfile -/

theorem sizeIsNumber_iff (s : List Char) :
    sizeIsNumber s = true ↔ ∀ c ∈ s, 48 ≤ c.toNat ∧ c.toNat ≤ 57 := by
  induction s with
  | nil => simp [sizeIsNumber]
  | cons c cs ih =>
    rw [sizeIsNumber]
    by_cases hc : c.toNat < 48 ∨ c.toNat > 57
    · rw [if_pos hc]
      simp only [List.mem_cons, forall_eq_or_imp]
      constructor
      · intro h; cases h
      · rintro ⟨⟨h1, h2⟩, _⟩; omega
    · rw [if_neg hc, ih]
      simp only [List.mem_cons, forall_eq_or_imp]
      constructor
      · intro h; exact ⟨by omega, h⟩
      · rintro ⟨_, h⟩; exact h

theorem strtolDigits_eq (s : List Char) (h : ∀ c ∈ s, 48 ≤ c.toNat ∧ c.toNat ≤ 57) :
    ∀ acc, strtolDigits s acc = acc * 10 ^ s.length + decimalValue s := by
  induction s with
  | nil => intro acc; simp [strtolDigits, decimalValue]
  | cons c cs ih =>
    intro acc
    have hc := h c (List.mem_cons_self c cs)
    have hcs : ∀ d ∈ cs, 48 ≤ d.toNat ∧ d.toNat ≤ 57 :=
      fun d hd => h d (List.mem_cons_of_mem c hd)
    rw [strtolDigits, if_pos hc, ih hcs, decimalValue, List.length_cons]
    ring

theorem strtol_eq_decimalValue (s : List Char)
    (h : ∀ c ∈ s, 48 ≤ c.toNat ∧ c.toNat ≤ 57) :
    strtol s = min (decimalValue s : Int) LONG_MAX := by
  cases s with
  | nil => simp [strtol, decimalValue, LONG_MAX]
  | cons c cs =>
    have hc := h c (List.mem_cons_self c cs)
    have hsp : isspace c = false := by
      simp only [isspace, Bool.or_eq_false_iff, Bool.and_eq_false_iff, decide_eq_false_iff_not]
      omega
    have h45 : ¬ c.toNat = 45 := by omega
    have h43 : ¬ c.toNat = 43 := by omega
    have hd := strtolDigits_eq (c :: cs) h 0
    simp only [zero_mul, zero_add] at hd
    simp only [strtol, List.dropWhile_cons, hsp, Bool.false_eq_true, if_false, h45, h43, hd]

theorem atoi_eq_decimalValue (s : String)
    (h : ∀ c ∈ s.toList, 48 ≤ c.toNat ∧ c.toNat ≤ 57)
    (hn : decimalValue s.toList ≤ 2 ^ 31 - 1) :
    atoi s = (decimalValue s.toList : Int) := by
  rw [atoi, strtol_eq_decimalValue s.toList h, longToInt]
  have h1 : ((decimalValue s.toList : Nat) : Int) ≤ 2 ^ 31 - 1 := by
    have := Int.ofNat_le.mpr hn
    simpa using this
  have h0 : (0 : Int) ≤ (decimalValue s.toList : Nat) := Int.ofNat_nonneg _
  have hmin : min ((decimalValue s.toList : Nat) : Int) LONG_MAX
      = (decimalValue s.toList : Nat) := by
    apply min_eq_left
    simp only [LONG_MAX]
    omega
  rw [hmin]
  omega

theorem executeCommand_mkfile (getVCBCurrentDirectory : Nat → Nat)
    (argc : Int) (name ext size : String) (blockSize : Nat) :
    executeCommand getVCBCurrentDirectory argc ["mkfile", name, ext, size] blockSize
      = if sizeIsNumber size.toList = true then
          some [Event.createFileDirectory name ext (atoi size)
                  (getVCBCurrentDirectory blockSize) blockSize]
        else some [Event.printf "Invalid Argument. File Size Must Be a Number.\n\n"] := by
  simp [executeCommand]

/-! ## Properties of executeCommand -/

/-- C4: for a `mkfile` command with three arguments, `executeCommand` makes no
file system call (it only prints the invalid-argument message) exactly when the
size argument has a character outside `0`..`9`; otherwise its only call is
`createFileDirectory` with name `argv[1]` and extension `argv[2]`. -/
theorem executeCommand_mkfile_size_check (getVCBCurrentDirectory : Nat → Nat)
    (argc : Int) (name ext size : String) (blockSize : Nat) :
    ∃ events,
      executeCommand getVCBCurrentDirectory argc ["mkfile", name, ext, size] blockSize
        = some events ∧
      (operations events = [] ↔ ∃ c ∈ size.toList, c.toNat < 48 ∨ 57 < c.toNat) ∧
      (operations events = [] →
        events = [Event.printf "Invalid Argument. File Size Must Be a Number.\n\n"]) ∧
      (operations events ≠ [] →
        events = [Event.createFileDirectory name ext (atoi size)
                    (getVCBCurrentDirectory blockSize) blockSize]) := by
  by_cases hs : sizeIsNumber size.toList = true
  · refine ⟨[Event.createFileDirectory name ext (atoi size)
      (getVCBCurrentDirectory blockSize) blockSize], ?_, ?_, ?_, ?_⟩
    · rw [executeCommand_mkfile, if_pos hs]
    · have hd := (sizeIsNumber_iff size.toList).mp hs
      simp only [operations, List.filter, Event.isOperation, List.cons_ne_nil, false_iff,
        not_exists, not_and]
      intro c hc hbad
      have := hd c hc
      omega
    · intro h; simp [operations, Event.isOperation] at h
    · intro _; rfl
  · refine ⟨[Event.printf "Invalid Argument. File Size Must Be a Number.\n\n"], ?_, ?_, ?_, ?_⟩
    · rw [executeCommand_mkfile, if_neg hs]
    · have hd : ¬ ∀ c ∈ size.toList, 48 ≤ c.toNat ∧ c.toNat ≤ 57 :=
        fun h => hs ((sizeIsNumber_iff size.toList).mpr h)
      simp only [operations, List.filter, Event.isOperation, true_iff]
      by_contra hne
      apply hd
      intro c hc
      by_contra hbad
      exact hne ⟨c, hc, by omega⟩
    · intro _; rfl
    · intro h; simp [operations, Event.isOperation] at h

/-- C5: for a `mkfile` command whose size argument is a string of decimal digits
denoting a number `n` of at most `2^31 - 1` (leading zeros allowed), the size
`executeCommand` passes to `createFileDirectory` is `n`. -/
theorem executeCommand_mkfile_size (getVCBCurrentDirectory : Nat → Nat)
    (argc : Int) (name ext size : String) (blockSize : Nat)
    (hdigits : ∀ c ∈ size.toList, 48 ≤ c.toNat ∧ c.toNat ≤ 57)
    (hrange : decimalValue size.toList ≤ 2 ^ 31 - 1) :
    executeCommand getVCBCurrentDirectory argc ["mkfile", name, ext, size] blockSize
      = some [Event.createFileDirectory name ext (decimalValue size.toList : Nat)
                (getVCBCurrentDirectory blockSize) blockSize] := by
  have hs : sizeIsNumber size.toList = true := (sizeIsNumber_iff size.toList).mpr hdigits
  rw [executeCommand_mkfile, if_pos hs, atoi_eq_decimalValue size hdigits hrange]

theorem executeCommand_mkfile_size_witness :
    (∀ c ∈ "2000".toList, 48 ≤ c.toNat ∧ c.toNat ≤ 57) ∧
    decimalValue "2000".toList ≤ 2 ^ 31 - 1 ∧
    decimalValue "2000".toList = 2000 ∧
    executeCommand (fun _ => 7) 4 ["mkfile", "report", "txt", "2000"] 512
      = some [Event.createFileDirectory "report" "txt" (decimalValue "2000".toList : Nat)
                ((fun _ => 7) 512) 512] :=
  ⟨by decide, by decide, by decide,
    executeCommand_mkfile_size (fun _ => 7) 4 "report" "txt" "2000" 512
      (by decide) (by decide)⟩


/-- C2: `rmfile`, `cpyfile`, `mvfile` and `chmod`, given with the argument
count `userInputIsValid` requires, are accepted by `userInputIsValid`, and
`executeCommand` makes no call at all for them: it has no branch for these four
commands. -/
theorem executeCommand_rmfile_cpyfile_mvfile_chmod_no_call
    (getVCBCurrentDirectory : Nat → Nat) (blockSize : Nat) :
    (userInputIsValid 2 ["rmfile", "report.txt"] = some 1 ∧
      executeCommand getVCBCurrentDirectory 2 ["rmfile", "report.txt"] blockSize
        = some []) ∧
    (userInputIsValid 3 ["cpyfile", "report.txt", "copy.txt"] = some 1 ∧
      executeCommand getVCBCurrentDirectory 3 ["cpyfile", "report.txt", "copy.txt"] blockSize
        = some []) ∧
    (userInputIsValid 3 ["mvfile", "report.txt", "docs"] = some 1 ∧
      executeCommand getVCBCurrentDirectory 3 ["mvfile", "report.txt", "docs"] blockSize
        = some []) ∧
    (userInputIsValid 3 ["chmod", "report.txt", "484"] = some 1 ∧
      executeCommand getVCBCurrentDirectory 3 ["chmod", "report.txt", "484"] blockSize
        = some []) := by
  refine ⟨⟨by decide, ?_⟩, ⟨by decide, ?_⟩, ⟨by decide, ?_⟩, ⟨by decide, ?_⟩⟩ <;>
    simp [executeCommand]

/-- C3 as stated fails for `cd`: with the current directory at block 7,
`cd docs` calls `changeDirectory` with 0, not 7, as its second argument. -/
theorem executeCommand_cd_not_current_directory :
    executeCommand (fun _ => 7) 2 ["cd", "docs"] 512
      = some [Event.changeDirectory "docs" 0 512] ∧
    ¬ passesCurrentDirectory (fun _ => 7) 512 [Event.changeDirectory "docs" 0 512] := by
  refine ⟨by decide, ?_⟩
  intro h
  have := h (Event.changeDirectory "docs" 0 512) (List.mem_singleton.mpr rfl) 0 rfl
  exact absurd this (by decide)

/-- C3, amended: `executeCommand` passes the value of
`getVCBCurrentDirectory(blockSize)` as the directory argument of
`listDirectories` for `ls`, `listTree` for `tree`, `createDirectory` for `mkdir`
and `createFileDirectory` for `mkfile`; for `cd` the second argument of
`changeDirectory` is the constant 0. -/
theorem executeCommand_directory_argument (getVCBCurrentDirectory : Nat → Nat)
    (argc : Int) (a1 a2 a3 : String) (rest : List String) (blockSize : Nat) :
    executeCommand getVCBCurrentDirectory argc ("ls" :: rest) blockSize
      = some [Event.listDirectories (getVCBCurrentDirectory blockSize) blockSize] ∧
    executeCommand getVCBCurrentDirectory argc ("tree" :: rest) blockSize
      = some [Event.listTree (getVCBCurrentDirectory blockSize) blockSize] ∧
    executeCommand getVCBCurrentDirectory argc ("cd" :: a1 :: rest) blockSize
      = some [Event.changeDirectory a1 0 blockSize] ∧
    executeCommand getVCBCurrentDirectory argc ("mkdir" :: a1 :: rest) blockSize
      = some [Event.createDirectory a1 (getVCBCurrentDirectory blockSize) blockSize] ∧
    executeCommand getVCBCurrentDirectory argc ("mkfile" :: a1 :: a2 :: a3 :: rest) blockSize
      = (if sizeIsNumber a3.toList = true then
          some [Event.createFileDirectory a1 a2 (atoi a3)
                  (getVCBCurrentDirectory blockSize) blockSize]
        else some [Event.printf "Invalid Argument. File Size Must Be a Number.\n\n"]) := by
  refine ⟨?_, ?_, ?_, ?_, ?_⟩ <;> simp [executeCommand]

/-- C8: the alias `c` is accepted by `userInputIsValid` with no argument, and
`executeCommand` makes no call for it, while `commands`, `Commands` and `C`
call `printCommands`: the `commands` branch compares with `C` twice and never
with `c`. -/
theorem executeCommand_alias_c_no_call (getVCBCurrentDirectory : Nat → Nat)
    (blockSize : Nat) :
    userInputIsValid 1 ["c"] = some 1 ∧
    executeCommand getVCBCurrentDirectory 1 ["c"] blockSize = some [] ∧
    executeCommand getVCBCurrentDirectory 1 ["commands"] blockSize
      = some [Event.printCommands] ∧
    executeCommand getVCBCurrentDirectory 1 ["Commands"] blockSize
      = some [Event.printCommands] ∧
    executeCommand getVCBCurrentDirectory 1 ["C"] blockSize
      = some [Event.printCommands] := by
  refine ⟨by decide, ?_, ?_, ?_, ?_⟩ <;> simp [executeCommand]

/-! ## Properties of the constants and records of fsStructures.h -/

/-- C6 as stated fails: a `struct directoryEntry` does not occupy 72 bytes. -/
theorem directoryEntry_not_72_bytes :
    ¬ (sizeofStruct directoryEntry = 72 ∧
        8 * sizeofStruct directoryEntry ≤ MINBLOCKSIZE ∧
        MINBLOCKSIZE < 9 * sizeofStruct directoryEntry) := by
  decide

/-- C6, amended: a `struct directoryEntry` laid out with natural alignment
occupies 64 bytes, and exactly 8 such records fit in one 512-byte block. -/
theorem directoryEntry_64_bytes :
    sizeofStruct directoryEntry = 64 ∧
    8 * sizeofStruct directoryEntry ≤ MINBLOCKSIZE ∧
    MINBLOCKSIZE < 9 * sizeofStruct directoryEntry := by
  decide

/-- C7: the masks of the 6th to 9th permission are not powers of two:
`GROUP_READ`, `USER_EXECUTE`, `USER_WRITE` and `USER_READ` are 18, 20, 22 and 24
instead of 32, 64, 128 and 256, and the masks for user read, write, execute,
group read and other read combine to 30 instead of 484. -/
theorem permissionMasks_not_powers_of_two :
    permissionMasks = [1, 2, 4, 8, 16, 18, 20, 22, 24] ∧
    permissionMasks[5]? ≠ some (2 ^ 5) ∧
    permissionMasks[6]? ≠ some (2 ^ 6) ∧
    permissionMasks[7]? ≠ some (2 ^ 7) ∧
    permissionMasks[8]? ≠ some (2 ^ 8) ∧
    USER_READ ||| USER_WRITE ||| USER_EXECUTE ||| GROUP_READ ||| OTHER_READ = 30 := by
  decide

/-- C9: with 8-byte block numbers and a 512-byte block, the chain pointer and
63 entries of `fileIndexLocation` fill an index block exactly, 64 entries do
not fit, and `n` entries fit exactly when `n` is at most 63. -/
theorem fileIndexInformation_capacity :
    uint64_t.size = 8 ∧
    fileIndexInformationBytes 63 = MINBLOCKSIZE ∧
    MINBLOCKSIZE < fileIndexInformationBytes 64 ∧
    ∀ n, fileIndexInformationBytes n ≤ MINBLOCKSIZE ↔ n ≤ 63 := by
  refine ⟨by decide, by decide, by decide, ?_⟩
  intro n
  have h8 : sizeofStruct fileIndexInformation = 8 := by decide
  simp only [fileIndexInformationBytes, h8, uint64_t, MINBLOCKSIZE]
  omega

end FileSystem
